import Mathlib

/-!
Verification of the pmd-dx-api server (Go) against its natural-language
specification.  The Go code is shallowly embedded: each Lean definition
mirrors one function of the source (package `db`, `handler`, `middleware`,
`cache`, `models`), with machine integers modelled as `Int` (no arithmetic
here can overflow 64 bits for the inputs considered), fallible operations
returning `Except`/`Option`, and the database/redis collaborators modelled
as explicit state records passed to the embedded functions.
-/

/-- Go `strconv.Atoi(s)`: an optional `+`/`-` sign followed by at least one
ASCII digit, rejecting anything else and any value outside the signed 64-bit
range (Go then returns a non-nil error, which every caller in this code base
treats as "use the default").  `none` models a non-nil error. -/
def goAtoi (s : String) : Option Int :=
  let signAndDigits : Bool × List Char :=
    match s.data with
    | '+' :: rest => (false, rest)
    | '-' :: rest => (true, rest)
    | cs => (false, cs)
  let neg := signAndDigits.1
  let ds := signAndDigits.2
  if ds = [] then none
  else if ds.all Char.isDigit then
    let mag : Nat := ds.foldl (fun a c => a * 10 + (c.toNat - 48)) 0
    let v : Int := if neg then -(mag : Int) else (mag : Int)
    if v < -(2 ^ 63) ∨ (2 ^ 63 - 1 : Int) < v then none else some v
  else none

/-- Go's 64-bit signed integer semantics: the two's-complement value of an
integer reduced modulo `2^64`, landing in `[-2^63, 2^63)`.  Every arithmetic
operation on Go's `int` wraps this way. -/
def int64Wrap (x : Int) : Int :=
  (x + 2 ^ 63) % 2 ^ 64 - 2 ^ 63

/-- Go `strings.ToLower` restricted to ASCII (the only characters this API's
resource names use). -/
def stringsToLower (s : String) : String :=
  ⟨s.data.map Char.toLower⟩

/-- The ASCII fragment of Go `strings.Title`'s separator test: ASCII letters,
digits and the underscore are not separators, every other ASCII character is. -/
def goIsSeparator (c : Char) : Bool :=
  !(c.isAlpha || c.isDigit || c = '_')

/-- Worker for `stringsTitle`: carries the previous character, upper-casing a
character that follows a separator. -/
def stringsTitleAux : Char → List Char → List Char
  | _, [] => []
  | prev, c :: cs => (if goIsSeparator prev then c.toUpper else c) :: stringsTitleAux c cs

/-- Go `strings.Title` restricted to ASCII: the first character of every word
(the scan starts from a blank) is mapped to upper case. -/
def stringsTitle (s : String) : String :=
  ⟨stringsTitleAux ' ' s.data⟩

namespace models

/-- `models.NamedResourceID` (models.go): a short resource representation. -/
structure NamedResourceID where
  Name : String
  ID : Int
deriving Repr, DecidableEq

/-- `models.Ability` (models.go): an ability entry from the database. -/
structure Ability where
  AbilityID : Int
  AbilityName : String
  Description : String
deriving Repr, DecidableEq

end models

namespace db

/-- The `db.ID` search-type constant. -/
def ID : String := "ID"

/-- The `db.Name` search-type constant. -/
def Name : String := "name"

/-- The `db.IDAsc` sort-type constant. -/
def IDAsc : String := "id_asc"

/-- The `db.IDDesc` sort-type constant. -/
def IDDesc : String := "id_desc"

/-- The `db.NameAsc` sort-type constant. -/
def NameAsc : String := "name_asc"

/-- The `db.NameDesc` sort-type constant. -/
def NameDesc : String := "name_desc"

/-- `db.SearchInput`: the input for a query searching a resource by ID or
name; the Go struct holds all three fields, with the unused one zero-valued. -/
structure SearchInput where
  SearchType : String
  ID : Int
  Name : String
deriving Repr, DecidableEq

/-- `db.SortInput`: whether a specific sorting is requested, and which. -/
structure SortInput where
  SortEnabled : Bool
  SortType : String
deriving Repr, DecidableEq

/-- `db.Pagination`: how many and which results should be queried. -/
structure Pagination where
  PerPage : Int
  Page : Int
deriving Repr, DecidableEq

/-- `db.ResourceNotFoundError`: error if a requested resource was not found. -/
structure ResourceNotFoundError where
  ResourceType : String
  SearchType : String
  ID : Int
  Name : String
deriving Repr, DecidableEq

/-- `ResourceNotFoundError.Error()`: the formatted not-found message
(`fmt.Sprintf("resource of type '%v' with %v '%v' not found", ...)`). -/
def ResourceNotFoundError.Error (e : ResourceNotFoundError) : String :=
  if e.SearchType = db.ID then
    "resource of type '" ++ e.ResourceType ++ "' with " ++ e.SearchType ++ " '"
      ++ toString e.ID ++ "' not found"
  else if e.SearchType = db.Name then
    "resource of type '" ++ e.ResourceType ++ "' with " ++ e.SearchType ++ " '"
      ++ e.Name ++ "' not found"
  else
    "resource not found"

/-- The error union a `db` query returns: a typed not-found error or any
other error carrying only a message (illegal search type, driver failure). -/
inductive DBError where
  | notFound (e : ResourceNotFoundError)
  | other (msg : String)
deriving Repr, DecidableEq

/-- `db.buildQuery` (queries.go): appends the `ORDER BY` clause selected by
the `SortInput` (default: `idColumn ASC`) and the `LIMIT`/`OFFSET` clause
computed from the `Pagination` to the base query.  The offset
`(page-1)*perPage` is computed in Go's 64-bit `int` arithmetic, so both the
decrement and the product wrap modulo `2^64`. -/
def buildQuery (query : String) (sort : SortInput) (idColumn nameColumn : String)
    (pagination : Pagination) : String :=
  let sortQuery := "ORDER BY " ++ idColumn ++ " ASC"
  let sortQuery :=
    if sort.SortEnabled then
      if sort.SortType = IDDesc then "ORDER BY " ++ idColumn ++ " DESC"
      else if sort.SortType = NameAsc then "ORDER BY " ++ nameColumn ++ " ASC"
      else if sort.SortType = NameDesc then "ORDER BY " ++ nameColumn ++ " DESC"
      else sortQuery
    else sortQuery
  let limitQuery := "LIMIT " ++ toString pagination.PerPage ++ " OFFSET "
      ++ toString (int64Wrap (int64Wrap (pagination.Page - 1) * pagination.PerPage))
  query ++ " " ++ sortQuery ++ " " ++ limitQuery ++ ";"

/-- The database collaborator: `exec` answers a list query's SQL text with
`(id, name)` rows, `countExec` answers a `SELECT COUNT(*)` text with the
table's row count.  Both are opaque data-access primitives of the spec. -/
structure DBState where
  exec : String → List (Int × String)
  countExec : String → Int

/-- `db.getCount` (queries.go): queries `SELECT COUNT(*) AS count FROM
<table>;` and returns the scanned integer. -/
def getCount (st : DBState) (table : String) : Int :=
  st.countExec ("SELECT COUNT(*) AS count FROM " ++ table ++ ";")

/-- `db.GetAbilityList`: runs the built list query over `ability`, then pairs
the rows with the total count of the `ability` table. -/
def GetAbilityList (st : DBState) (sort : SortInput) (pagination : Pagination) :
    Int × List models.NamedResourceID :=
  let rows := st.exec (buildQuery "SELECT ability_ID, ability_name FROM ability" sort
      "ability_ID" "ability_name" pagination)
  (getCount st "ability", rows.map (fun r => { Name := r.2, ID := r.1 }))

/-- `db.GetCampList`: the list query over `camp` plus the `camp` count. -/
def GetCampList (st : DBState) (sort : SortInput) (pagination : Pagination) :
    Int × List models.NamedResourceID :=
  let rows := st.exec (buildQuery "SELECT camp_ID, camp_name FROM camp" sort
      "camp_ID" "camp_name" pagination)
  (getCount st "camp", rows.map (fun r => { Name := r.2, ID := r.1 }))

/-- `db.GetDungeonList`: the list query over `dungeon` plus the `dungeon` count. -/
def GetDungeonList (st : DBState) (sort : SortInput) (pagination : Pagination) :
    Int × List models.NamedResourceID :=
  let rows := st.exec (buildQuery "SELECT dungeon_ID, dungeon_name FROM dungeon" sort
      "dungeon_ID" "dungeon_name" pagination)
  (getCount st "dungeon", rows.map (fun r => { Name := r.2, ID := r.1 }))

/-- `db.GetMoveList`: the list query over `attack_move` plus the
`attack_move` count. -/
def GetMoveList (st : DBState) (sort : SortInput) (pagination : Pagination) :
    Int × List models.NamedResourceID :=
  let rows := st.exec (buildQuery "SELECT move_ID, move_name FROM attack_move" sort
      "move_ID" "move_name" pagination)
  (getCount st "attack_move", rows.map (fun r => { Name := r.2, ID := r.1 }))

/-- `db.GetPokemonList`: the list query over `pokemon` plus the `pokemon` count. -/
def GetPokemonList (st : DBState) (sort : SortInput) (pagination : Pagination) :
    Int × List models.NamedResourceID :=
  let rows := st.exec (buildQuery "SELECT dex_number, pokemon_name FROM pokemon" sort
      "dex_number" "pokemon_name" pagination)
  (getCount st "pokemon", rows.map (fun r => { Name := r.2, ID := r.1 }))

/-- `db.GetPokemonTypeList`: the list query over `pokemon_type`; the source
pairs it with `getCount("dungeon")`, not with the `pokemon_type` count. -/
def GetPokemonTypeList (st : DBState) (sort : SortInput) (pagination : Pagination) :
    Int × List models.NamedResourceID :=
  let rows := st.exec (buildQuery "SELECT * FROM pokemon_type" sort
      "type_ID" "type_name" pagination)
  (getCount st "dungeon", rows.map (fun r => { Name := r.2, ID := r.1 }))

/-- One flat result row of the `GetAbility` LEFT JOIN query: the parent
column group `(ability_ID, ability_name, description)` followed by the child
column group `(dex_number, pokemon_name)`.  An all-null child group is
scanned into the zero values `(0, "")` (the scan error is discarded by the
source, the claim's "child key scanned as 0"). -/
structure AbilityRow where
  abilityID : Int
  abilityName : String
  description : String
  dexNumber : Int
  pokemonName : String
deriving Repr, DecidableEq

/-- The `&ResourceNotFoundError{...}` value `GetAbility` builds when the
scanned `AbilityID` is zero, by search type. -/
def abilityNotFound (input : SearchInput) : DBError :=
  if input.SearchType = ID then
    .notFound { ResourceType := "ability", SearchType := input.SearchType,
                ID := input.ID, Name := "" }
  else
    .notFound { ResourceType := "ability", SearchType := input.SearchType,
                ID := 0, Name := input.Name }

/-- `db.GetAbility` (queries.go 126-178) with the row set the driver returned
for the search passed explicitly: the first row is scanned into the ability
and, when its child key is non-null (non-zero), into the first pokemon; every
further row contributes one pokemon with its ability columns thrown away; a
zero scanned `AbilityID` (no row matched the base query) yields the
not-found error. -/
def GetAbility (input : SearchInput) (rows : List AbilityRow) :
    Except DBError (models.Ability × List models.NamedResourceID) :=
  if input.SearchType = ID ∨ input.SearchType = Name then
    match rows with
    | [] =>
      -- rows.Next() is false, the scan fails and its error is discarded, so
      -- every scanned value keeps its zero value and AbilityID = 0.
      .error (abilityNotFound input)
    | r :: rest =>
      let ability : models.Ability :=
        { AbilityID := r.abilityID, AbilityName := r.abilityName,
          Description := r.description }
      let firstPokemon : List models.NamedResourceID :=
        if r.dexNumber ≠ 0 then [{ Name := r.pokemonName, ID := r.dexNumber }] else []
      let pokemon := firstPokemon
          ++ rest.map (fun q => ({ Name := q.pokemonName, ID := q.dexNumber } :
              models.NamedResourceID))
      if ability.AbilityID = 0 then .error (abilityNotFound input)
      else .ok (ability, pokemon)
  else
    .error (.other ("illegal search type " ++ input.SearchType))

end db

namespace handler

/-- `handler.FieldLimitingParams`: the parsed `fields` query parameter. -/
structure FieldLimitingParams where
  FieldLimitingEnabled : Bool
  Fields : List String
deriving Repr, DecidableEq

/-- `handler.limitResultFields` over an ordered JSON object modelled as its
key/value list in insertion order: when limiting is enabled, every key not
named by `Fields` is marked for deletion and then deleted (the two phases of
the source; deletions of distinct keys commute, so the result is the ordered
filter). -/
def limitResultFields {α : Type} (responseJSON : List (String × α))
    (params : FieldLimitingParams) : List (String × α) :=
  if !params.FieldLimitingEnabled then responseJSON
  else
    let deleteKeys := (responseJSON.map Prod.fst).filter
        (fun k => decide (k ∉ params.Fields))
    responseJSON.filter (fun kv => decide (kv.1 ∉ deleteKeys))

/-- `handler.generateSearchInput`: a numeric search argument is a by-ID key;
anything else is lower-cased then title-cased and becomes a by-name key. -/
def generateSearchInput (arg : String) : db.SearchInput :=
  match goAtoi arg with
  | some id => { SearchType := db.ID, ID := id, Name := "" }
  | none => { SearchType := db.Name, ID := 0, Name := stringsTitle (stringsToLower arg) }

/-- The body `http.Error(w, msg, code)` writes: the message and a newline. -/
def httpErrorBody (msg : String) : String := msg ++ "\n"

/-- The generic message `ErrorAndLog500` sends to the client. -/
def internal500Message : String :=
  "Something went wrong on our side. Please contact the administrator."

/-- The observable outcome of a search handler: an error response written
with a status code and plain-text body, or the assembled success payload
(serialized to JSON by the source, which this model keeps structured). -/
inductive HandlerOut where
  | response (status : Nat) (body : String)
  | okJson (ability : models.Ability) (pokemon : List models.NamedResourceID)
deriving Repr, DecidableEq

/-- `handler.AbilitySearchHandler` with the database's answer for each search
input passed as `q`: a `ResourceNotFoundError` is answered with 404 and the
error's own message, any other error with the generic 500 message, and a hit
with the assembled ability payload. -/
def AbilitySearchHandler (searcharg : String)
    (q : db.SearchInput → List db.AbilityRow) : HandlerOut :=
  let input := generateSearchInput searcharg
  match db.GetAbility input (q input) with
  | .error (.notFound e) => .response 404 (httpErrorBody e.Error)
  | .error (.other _) => .response 500 (httpErrorBody internal500Message)
  | .ok (a, ps) => .okJson a ps

/-- Whether a list of characters starts with the literal `page=`. -/
def startsWithPageEq : List Char → Bool
  | 'p' :: 'a' :: 'g' :: 'e' :: '=' :: _ => true
  | _ => false

/-- Whether some `?` or `&` in `cs` is followed by the literal `page=`. -/
def suffixHasPageMarker : List Char → Bool
  | [] => false
  | c :: rest => ((c = '?' || c = '&') && startsWithPageEq rest) || suffixHasPageMarker rest

/-- Whether Go `regexp.Match` succeeds for  the pattern
`.+[?&]page=\d*(&.+)?` : since `\d*` and the final group can match nothing,
this holds exactly when a `?` or `&` at position at least 1 is followed by
the literal `page=`. -/
def pageParamMatch (cs : List Char) : Bool :=
  match cs with
  | [] => false
  | _ :: rest => suffixHasPageMarker rest

/-- Worker for `queryMarkMatch`: whether a `?` with at least one character
after it occurs in the list. -/
def queryMarkAux : List Char → Bool
  | '?' :: _ :: _ => true
  | _ :: rest => queryMarkAux rest
  | [] => false

/-- Whether Go `regexp.Match` succeeds for the pattern `.+\?.+` : a `?` at
position at least 1 with at least one character after it. -/
def queryMarkMatch (cs : List Char) : Bool :=
  match cs with
  | [] => false
  | _ :: rest => queryMarkAux rest

/-- Fuel-indexed worker for `replacePage` (the fuel bounds the scan length so
the recursion is structural): each `?` or `&` followed by `page=` and a
maximal digit run is rewritten to keep the marker and `page=` but carry the
new page number, exactly Go's `ReplaceAllString` for `([?&])page=\d*` with
the template `${1}page=<n>`. -/
def replacePageGo (n : Int) : Nat → List Char → List Char
  | _, [] => []
  | 0, cs => cs
  | fuel + 1, c :: rest =>
    if ((c = '?' ∨ c = '&') ∧ startsWithPageEq rest) then
      c :: 'p' :: 'a' :: 'g' :: 'e' :: '='
        :: ((toString n).data
            ++ replacePageGo n fuel ((rest.drop 5).dropWhile Char.isDigit))
    else
      c :: replacePageGo n fuel rest

/-- Go `re.ReplaceAllString(s, fmt.Sprintf("${1}page=%v", n))` for the
compiled pattern `([?&])page=\d*`. -/
def replacePage (n : Int) (s : String) : String :=
  ⟨replacePageGo n s.data.length s.data⟩

/-- The pagination data `answerWithListJSON` derives (handler.go 89-136):
the computed last page and the three link URLs after the `null` markers are
applied. -/
structure ListLinks where
  lastPage : Int
  nextURL : String
  previousURL : String
  lastURL : String
deriving Repr, DecidableEq

/-- The pagination-link portion of `handler.answerWithListJSON`: computes
`lastPage` from the count with Go's truncating `/` and `%`, ensures the
request URL carries a `page` parameter, substitutes the page number for the
next/previous/last URLs, and replaces links that should not be offered by
the literal string `null`. -/
def answerWithListLinks (count : Int) (pagination : db.Pagination)
    (requestURL : String) : ListLinks :=
  let lastPage := Int.tdiv count pagination.PerPage + 1
  let lastPage := if Int.tmod count pagination.PerPage = 0 then lastPage - 1 else lastPage
  let nextPage := pagination.Page + 1
  let previousPage := pagination.Page - 1
  let requestURL :=
    if pageParamMatch requestURL.data then requestURL
    else if queryMarkMatch requestURL.data then
      requestURL ++ "&page=" ++ toString pagination.Page
    else
      requestURL ++ "?page=" ++ toString pagination.Page
  let nextURL := replacePage nextPage requestURL
  let previousURL := replacePage previousPage requestURL
  let lastURL := replacePage lastPage requestURL
  let previousURL := if pagination.Page = 1 then "null" else previousURL
  let nextURL2 :=
    if pagination.Page = lastPage then "null"
    else if pagination.Page > lastPage then "null"
    else nextURL
  let previousURL2 :=
    if pagination.Page = lastPage then previousURL
    else if pagination.Page > lastPage then "null"
    else previousURL
  { lastPage := lastPage, nextURL := nextURL2, previousURL := previousURL2,
    lastURL := lastURL }

/-- The `Link` header value `answerWithListJSON` sets from the three links. -/
def linkHeaderValue (l : ListLinks) : String :=
  "<" ++ l.nextURL ++ ">; rel=\"next\", <" ++ l.previousURL ++ ">; rel=\"previous\", <"
    ++ l.lastURL ++ ">; rel=\"last\""

/-- `handler.ResourceListParams`: the parsed list-request parameters a
middleware stores in the request context (the source's field `Sort` is
lower-cased here because `Sort` is reserved in Lean). -/
structure ResourceListParams where
  sort : db.SortInput
  Pagination : db.Pagination
deriving Repr, DecidableEq

end handler

namespace middleware

/-- The parameter-parsing effect of `middleware.ResourceListParams`
(middleware.go 23-53) on the three raw query-parameter strings: an
unrecognized `sort` disables sorting, and a `per_page`/`page` that fails
`strconv.Atoi` or equals zero falls back to the defaults 50 and 1. -/
def resourceListParams (sortRaw perPageRaw pageRaw : String) :
    handler.ResourceListParams :=
  let sortInput : db.SortInput :=
    if sortRaw = db.IDAsc ∨ sortRaw = db.IDDesc ∨ sortRaw = db.NameAsc
        ∨ sortRaw = db.NameDesc then
      { SortEnabled := true, SortType := sortRaw }
    else
      { SortEnabled := false, SortType := "" }
  let perPage : Int :=
    match goAtoi perPageRaw with
    | none => 50
    | some v => if v = 0 then 50 else v
  let page : Int :=
    match goAtoi pageRaw with
    | none => 1
    | some v => if v = 0 then 1 else v
  { sort := sortInput, Pagination := { PerPage := perPage, Page := page } }

end middleware

namespace cache

/-- An `http.Header` modelled as an association list from a header name to
its list of values (Go's `map[string][]string`; the map has no duplicate
keys). -/
abbrev Header := List (String × List String)

/-- `http.Header.Set(k, v)`: the key's value list becomes the single value. -/
def setHeader : Header → String → String → Header
  | [], k, v => [(k, [v])]
  | (k', vs) :: rest, k, v =>
    if k' = k then (k, [v]) :: rest else (k', vs) :: setHeader rest k v

/-- Lookup of a header name's value list. -/
def getHeader : Header → String → Option (List String)
  | [], _ => none
  | (k', vs) :: rest, k => if k' = k then some vs else getHeader rest k

/-- The real `http.ResponseWriter`'s observable state: its header map, the
status actually sent (`none` until the first explicit or implicit
`WriteHeader`; net/http ignores later calls) and the body bytes sent, a byte
modelled as a `Nat`. -/
structure ResponseState where
  headers : Header
  status : Option Nat
  body : List Nat
deriving Repr, DecidableEq

/-- `cache.CacheResponseRecorder`'s own fields: the recorded body and status,
both with Go zero values until written. -/
structure CacheResponseRecorder where
  Json : List Nat
  Status : Nat
deriving Repr, DecidableEq

/-- One call a handler makes on the `http.ResponseWriter` handed to it. -/
inductive WriterOp where
  | setHdr (k v : String)
  | writeHeader (status : Nat)
  | write (chunk : List Nat)
deriving Repr, DecidableEq

/-- The effect of one call on a plain `http.ResponseWriter`: `Set` updates
the header map, the first `WriteHeader` fixes the status, and `Write` sends
the bytes (fixing status 200 first if none was sent). -/
def writerStep (w : ResponseState) (op : WriterOp) : ResponseState :=
  match op with
  | .setHdr k v => { w with headers := setHeader w.headers k v }
  | .writeHeader c => { w with status := if w.status = none then some c else w.status }
  | .write b =>
    { w with status := if w.status = none then some 200 else w.status,
             body := w.body ++ b }

/-- The effect of one call made through a `CacheResponseRecorder` wrapping
the real writer: `Header()` is the real writer's map, `WriteHeader` records
the status and forwards it, `Write` records this chunk (replacing, not
appending) and forwards it (cache.go 130-139). -/
def recorderStep (s : ResponseState × CacheResponseRecorder) (op : WriterOp) :
    ResponseState × CacheResponseRecorder :=
  match op with
  | .setHdr _ _ => (writerStep s.1 op, s.2)
  | .writeHeader c => (writerStep s.1 op, { s.2 with Status := c })
  | .write b => (writerStep s.1 op, { s.2 with Json := b })

/-- The redis hash contents: URL key to serialized header plus body. -/
abbrev CacheStore := List (String × (Header × List Nat))

/-- `HSET` of both fields under a key: replace the key's entry or add one. -/
def cacheSet : CacheStore → String → Header × List Nat → CacheStore
  | [], k, v => [(k, v)]
  | (k', v') :: rest, k, v =>
    if k' = k then (k, v) :: rest else (k', v') :: cacheSet rest k v

/-- `cache.StoreResponse` (cache.go 143-157): fails when the redis client is
not initialized or the gob encoding of the header fails (both modelled as
booleans of the collaborator's state); otherwise issues `HSET` — whose own
error the source discards — and reports success. -/
def StoreResponse (redisInitialized gobEncodeOk : Bool) (url : String)
    (header : Header) (json : List Nat) (store : CacheStore) :
    Except String CacheStore :=
  if redisInitialized = false then .error "redis connection not initialized"
  else if gobEncodeOk = false then .error "gob encode failed"
  else .ok (cacheSet store url (header, json))

/-- What `cache.GetCachedResponse` reported for this request: a stored entry,
the explicit `CacheMissError`, or any other cache-layer failure. -/
inductive CacheResult where
  | hit (header : Header) (json : List Nat)
  | miss
  | failure (msg : String)
deriving Repr, DecidableEq

end cache

namespace middleware

/-- Everything `middleware.CacheResponse` can touch: the response writer, the
redis store, the error log, and whether the wrapped handler was invoked. -/
structure MWState where
  response : cache.ResponseState
  store : cache.CacheStore
  errorLog : List String
  handlerRan : Bool
deriving Repr, DecidableEq

/-- `middleware.CacheResponse` (middleware.go 92-136) for one request, with
the cache lookup's outcome, the wrapped handler's writer calls, the request
URL (`r.URL.String()`, path plus query string) and the store collaborator's
state passed explicitly.  On a hit every stored header name is `Set` to the
first of its stored values (`v[0]` — `none` models the panic on an empty
value list), status 200 and the stored body are written, and the handler is
skipped.  On any other lookup error the error is logged and no response is
written.  On a miss the handler runs through a fresh recorder; if it
recorded status 200 the captured header map and body are stored under the
URL, and a store failure is only logged. -/
def CacheResponse (lookup : cache.CacheResult) (handlerOps : List cache.WriterOp)
    (url : String) (redisInitialized gobEncodeOk : Bool) (st : MWState) :
    Option MWState :=
  match lookup with
  | .hit header json =>
    if header.all (fun kv => !kv.2.isEmpty) then
      let w := header.foldl
          (fun w kv => { w with
            headers := cache.setHeader w.headers kv.1 (kv.2.headD "") }) st.response
      let w := cache.writerStep w (.writeHeader 200)
      let w := cache.writerStep w (.write json)
      some { st with response := w }
    else
      none
  | .failure msg =>
    some { st with errorLog := st.errorLog ++ [msg] }
  | .miss =>
    let s := handlerOps.foldl cache.recorderStep (st.response, { Json := [], Status := 0 })
    let st1 := { st with response := s.1, handlerRan := true }
    if s.2.Status = 200 then
      match cache.StoreResponse redisInitialized gobEncodeOk url s.1.headers s.2.Json
          st1.store with
      | .ok store2 => some { st1 with store := store2 }
      | .error e => some { st1 with errorLog := st1.errorLog ++ [e] }
    else
      some st1

end middleware

/-- A database state whose `pokemon_type` table holds 18 rows and whose
`dungeon` table holds 10: the fixture for checking the types-list count. -/
def typesCountFixture : db.DBState where
  exec := fun _ => []
  countExec := fun s =>
    if s = "SELECT COUNT(*) AS count FROM pokemon_type;" then 18
    else if s = "SELECT COUNT(*) AS count FROM dungeon;" then 10
    else 0

/-- Companion fact to the types-count check: for abilities, camps, dungeons,
moves and pokemon the list count is the count of the resource's own table
and never depends on sort or pagination. -/
theorem listCount_own_table_except_types (st : db.DBState) (sort : db.SortInput)
    (pagination : db.Pagination) :
    (db.GetAbilityList st sort pagination).1 = db.getCount st "ability"
    ∧ (db.GetCampList st sort pagination).1 = db.getCount st "camp"
    ∧ (db.GetDungeonList st sort pagination).1 = db.getCount st "dungeon"
    ∧ (db.GetMoveList st sort pagination).1 = db.getCount st "attack_move"
    ∧ (db.GetPokemonList st sort pagination).1 = db.getCount st "pokemon" :=
  ⟨rfl, rfl, rfl, rfl, rfl⟩

/-- C2: the types list pairs its rows with the count of the `dungeon` table:
on a state with 18 type rows and 10 dungeon rows it reports 10, for every
sort and pagination input, contradicting "the count of that resource's own
table". -/
theorem getPokemonTypeList_count_bug :
    (db.GetPokemonTypeList typesCountFixture { SortEnabled := false, SortType := "" }
        { PerPage := 50, Page := 1 }).1 = 10
    ∧ db.getCount typesCountFixture "pokemon_type" = 18
    ∧ ∀ (sort : db.SortInput) (pagination : db.Pagination),
        (db.GetPokemonTypeList typesCountFixture sort pagination).1 =
          db.getCount typesCountFixture "dungeon" :=
  ⟨rfl, rfl, fun _ _ => rfl⟩

/-- A value already inside the signed 64-bit range is its own wrap. -/
theorem int64Wrap_eq_self (x : Int) (h1 : -(2 ^ 63) ≤ x) (h2 : x < 2 ^ 63) :
    int64Wrap x = x := by
  unfold int64Wrap
  omega

/-- C7 counterexample: at the middleware-reachable pagination
`page = per_page = 4000000000` the source's 64-bit multiplication wraps, so
the emitted clause is `OFFSET -2446744077709551616`, not the exact product
`OFFSET 15999999996000000000` the claim asserts. -/
theorem buildQuery_offset_wrap_counterexample :
    (middleware.resourceListParams "" "4000000000" "4000000000").Pagination =
      { PerPage := 4000000000, Page := 4000000000 }
    ∧ db.buildQuery "SELECT a FROM t" { SortEnabled := false, SortType := "" }
        "id_c" "nm_c" { PerPage := 4000000000, Page := 4000000000 } =
      "SELECT a FROM t ORDER BY id_c ASC LIMIT 4000000000 OFFSET -2446744077709551616;"
    ∧ db.buildQuery "SELECT a FROM t" { SortEnabled := false, SortType := "" }
        "id_c" "nm_c" { PerPage := 4000000000, Page := 4000000000 } ≠
      "SELECT a FROM t ORDER BY id_c ASC LIMIT 4000000000 OFFSET 15999999996000000000;"
    ∧ ((4000000000 - 1) * 4000000000 : Int) = 15999999996000000000 := by
  refine ⟨by decide, by decide, by decide, by decide⟩

/-- C7 amended: `buildQuery` appends `ORDER BY idColumn ASC` when sorting is
disabled or the sort type is unrecognized, the matching `ORDER BY` clause for
the enabled named orders, and always `LIMIT perPage OFFSET o` where `o` is
`(page-1)*perPage` evaluated in Go's wrapping 64-bit signed arithmetic; `o`
coincides with the exact product `(page-1)*perPage` whenever `page ≥ 1`,
`perPage ≥ 1` and that product is below `2^63`. -/
theorem buildQuery_ordering_and_limit (query : String) (sort : db.SortInput)
    (idColumn nameColumn : String) (p : db.Pagination) :
    ((sort.SortEnabled = false
        ∨ (sort.SortType ≠ db.IDAsc ∧ sort.SortType ≠ db.IDDesc
            ∧ sort.SortType ≠ db.NameAsc ∧ sort.SortType ≠ db.NameDesc)) →
      db.buildQuery query sort idColumn nameColumn p =
        query ++ " " ++ ("ORDER BY " ++ idColumn ++ " ASC") ++ " "
          ++ ("LIMIT " ++ toString p.PerPage ++ " OFFSET "
              ++ toString (int64Wrap (int64Wrap (p.Page - 1) * p.PerPage))) ++ ";")
    ∧ (sort.SortEnabled = true ∧ sort.SortType = db.IDDesc →
      db.buildQuery query sort idColumn nameColumn p =
        query ++ " " ++ ("ORDER BY " ++ idColumn ++ " DESC") ++ " "
          ++ ("LIMIT " ++ toString p.PerPage ++ " OFFSET "
              ++ toString (int64Wrap (int64Wrap (p.Page - 1) * p.PerPage))) ++ ";")
    ∧ (sort.SortEnabled = true ∧ sort.SortType = db.NameAsc →
      db.buildQuery query sort idColumn nameColumn p =
        query ++ " " ++ ("ORDER BY " ++ nameColumn ++ " ASC") ++ " "
          ++ ("LIMIT " ++ toString p.PerPage ++ " OFFSET "
              ++ toString (int64Wrap (int64Wrap (p.Page - 1) * p.PerPage))) ++ ";")
    ∧ (sort.SortEnabled = true ∧ sort.SortType = db.NameDesc →
      db.buildQuery query sort idColumn nameColumn p =
        query ++ " " ++ ("ORDER BY " ++ nameColumn ++ " DESC") ++ " "
          ++ ("LIMIT " ++ toString p.PerPage ++ " OFFSET "
              ++ toString (int64Wrap (int64Wrap (p.Page - 1) * p.PerPage))) ++ ";")
    ∧ (∃ sortClause,
        db.buildQuery query sort idColumn nameColumn p =
          query ++ " " ++ sortClause ++ " "
            ++ ("LIMIT " ++ toString p.PerPage ++ " OFFSET "
                ++ toString (int64Wrap (int64Wrap (p.Page - 1) * p.PerPage))) ++ ";")
    ∧ (1 ≤ p.Page → 1 ≤ p.PerPage → (p.Page - 1) * p.PerPage < 2 ^ 63 →
        int64Wrap (int64Wrap (p.Page - 1) * p.PerPage) = (p.Page - 1) * p.PerPage) := by
  have hID : db.IDAsc ≠ db.IDDesc ∧ db.IDAsc ≠ db.NameAsc ∧ db.IDAsc ≠ db.NameDesc := by
    refine ⟨?_, ?_, ?_⟩ <;> decide
  refine ⟨?_, ?_, ?_, ?_, ?_, ?_⟩
  · rintro (h | ⟨h1, h2, h3, h4⟩)
    · simp [db.buildQuery, h]
    · simp [db.buildQuery, h2, h3, h4]
  · rintro ⟨hE, hT⟩
    simp [db.buildQuery, hE, hT]
  · rintro ⟨hE, hT⟩
    simp +decide [db.buildQuery, hE, hT]
  · rintro ⟨hE, hT⟩
    simp +decide [db.buildQuery, hE, hT]
  · by_cases hE : sort.SortEnabled
    · by_cases h2 : sort.SortType = db.IDDesc
      · exact ⟨"ORDER BY " ++ idColumn ++ " DESC", by simp [db.buildQuery, hE, h2]⟩
      · by_cases h3 : sort.SortType = db.NameAsc
        · exact ⟨"ORDER BY " ++ nameColumn ++ " ASC",
            by simp +decide [db.buildQuery, hE, h2, h3]⟩
        · by_cases h4 : sort.SortType = db.NameDesc
          · exact ⟨"ORDER BY " ++ nameColumn ++ " DESC",
              by simp +decide [db.buildQuery, hE, h2, h3, h4]⟩
          · exact ⟨"ORDER BY " ++ idColumn ++ " ASC",
              by simp [db.buildQuery, hE, h2, h3, h4]⟩
    · exact ⟨"ORDER BY " ++ idColumn ++ " ASC", by simp [db.buildQuery, hE]⟩
  · intro hp hpp hlt
    have hp0 : 0 ≤ p.Page - 1 := by omega
    have hinner : int64Wrap (p.Page - 1) = p.Page - 1 := by
      have hle : p.Page - 1 ≤ (p.Page - 1) * p.PerPage :=
        le_mul_of_one_le_right hp0 hpp
      exact int64Wrap_eq_self _ (by omega) (by omega)
    rw [hinner]
    have hprod0 : 0 ≤ (p.Page - 1) * p.PerPage := mul_nonneg hp0 (by omega)
    exact int64Wrap_eq_self _ (by omega) hlt

/-- C9: with limiting disabled `limitResultFields` is the identity; with
limiting enabled and an allow-list matching none of the object's keys — in
particular the empty list — every top-level key is removed, leaving the
empty object. -/
theorem limitResultFields_identity_and_empty (α : Type) (m : List (String × α))
    (params : handler.FieldLimitingParams) :
    (params.FieldLimitingEnabled = false → handler.limitResultFields m params = m)
    ∧ (params.FieldLimitingEnabled = true →
        (∀ k ∈ m.map Prod.fst, k ∉ params.Fields) →
        handler.limitResultFields m params = [])
    ∧ (params.FieldLimitingEnabled = true → params.Fields = [] →
        handler.limitResultFields m params = []) := by
  have hmain : params.FieldLimitingEnabled = true →
      (∀ k ∈ m.map Prod.fst, k ∉ params.Fields) →
      handler.limitResultFields m params = [] := by
    intro hE hnone
    simp only [handler.limitResultFields, hE, Bool.not_true, Bool.false_eq_true,
      if_false]
    rw [List.filter_eq_nil_iff]
    intro kv hkv
    have hk : kv.1 ∈ m.map Prod.fst := List.mem_map_of_mem Prod.fst hkv
    have : kv.1 ∈ (m.map Prod.fst).filter (fun k => decide (k ∉ params.Fields)) := by
      rw [List.mem_filter]
      exact ⟨hk, by simpa using hnone kv.1 hk⟩
    simpa using this
  refine ⟨?_, hmain, ?_⟩
  · intro hE
    simp [handler.limitResultFields, hE]
  · intro hE hempty
    exact hmain hE (by simp [hempty])

/-- C8 counterexample: the query strings `per_page=-1`, `page=-2` parse as
numeric and non-zero, so the parsed pagination keeps the negative values —
refuting `page ≥ 1 ∧ perPage ≥ 1`. -/
theorem resourceListParams_negative_counterexample :
    (middleware.resourceListParams "" "-1" "-2").Pagination.PerPage = -1
    ∧ (middleware.resourceListParams "" "-1" "-2").Pagination.Page = -2
    ∧ ¬(1 ≤ (-2 : Int)) := by
  refine ⟨?_, ?_, by decide⟩ <;> decide

/-- C8 amended: parameter parsing replaces a non-numeric or zero `per_page`
or `page` by the defaults 50 and 1 and keeps every other parsed value as
given (negative values included); hence both results are nonzero, but not
necessarily at least 1. -/
theorem resourceListParams_pagination_defaults (sortRaw perPageRaw pageRaw : String) :
    ((middleware.resourceListParams sortRaw perPageRaw pageRaw).Pagination.PerPage ≠ 0
      ∧ (middleware.resourceListParams sortRaw perPageRaw pageRaw).Pagination.Page ≠ 0)
    ∧ (goAtoi perPageRaw = none ∨ goAtoi perPageRaw = some 0 →
        (middleware.resourceListParams sortRaw perPageRaw pageRaw).Pagination.PerPage = 50)
    ∧ (goAtoi pageRaw = none ∨ goAtoi pageRaw = some 0 →
        (middleware.resourceListParams sortRaw perPageRaw pageRaw).Pagination.Page = 1)
    ∧ (∀ v : Int, goAtoi perPageRaw = some v → v ≠ 0 →
        (middleware.resourceListParams sortRaw perPageRaw pageRaw).Pagination.PerPage = v)
    ∧ (∀ v : Int, goAtoi pageRaw = some v → v ≠ 0 →
        (middleware.resourceListParams sortRaw perPageRaw pageRaw).Pagination.Page = v) := by
  refine ⟨⟨?_, ?_⟩, ?_, ?_, ?_, ?_⟩
  · rcases hA : goAtoi perPageRaw with _ | v
    · simp [middleware.resourceListParams, hA]
    · by_cases hv : v = 0 <;> simp [middleware.resourceListParams, hA, hv]
  · rcases hA : goAtoi pageRaw with _ | v
    · simp [middleware.resourceListParams, hA]
    · by_cases hv : v = 0 <;> simp [middleware.resourceListParams, hA, hv]
  · rintro (hA | hA) <;> simp [middleware.resourceListParams, hA]
  · rintro (hA | hA) <;> simp [middleware.resourceListParams, hA]
  · intro v hA hv
    simp [middleware.resourceListParams, hA, hv]
  · intro v hA hv
    simp [middleware.resourceListParams, hA, hv]




/-- C5: decoding a result set whose first row carries the parent columns with
a null child group (child key scanned as 0) yields the parent and, when K
fully-populated child rows follow, exactly K children in row order (K = 0
gives the empty child list). -/
theorem getAbility_row_decoding (input : db.SearchInput) (r : db.AbilityRow)
    (children : List db.AbilityRow)
    (hty : input.SearchType = db.ID ∨ input.SearchType = db.Name)
    (hparent : r.abilityID ≠ 0)
    (hnull : r.dexNumber = 0)
    (hkids : ∀ c ∈ children, c.dexNumber ≠ 0) :
    db.GetAbility input (r :: children) =
      .ok ({ AbilityID := r.abilityID, AbilityName := r.abilityName,
             Description := r.description },
           children.map (fun c => { Name := c.pokemonName, ID := c.dexNumber }))
    ∧ (children.map
        (fun c => ({ Name := c.pokemonName, ID := c.dexNumber } :
          models.NamedResourceID))).length = children.length := by
  constructor
  · rw [db.GetAbility, if_pos hty]
    simp [hnull, hparent]
  · exact List.length_map children _

/-- C5 witness: a two-row result set (parent row with null child group, one
child row) decodes to the parent and the singleton child list. -/
theorem getAbility_row_decoding_witness :
    db.GetAbility { SearchType := db.ID, ID := 7, Name := "" }
        [{ abilityID := 7, abilityName := "Stench", description := "d",
           dexNumber := 0, pokemonName := "" },
         { abilityID := 7, abilityName := "Stench", description := "d",
           dexNumber := 3, pokemonName := "Venusaur" }] =
      .ok ({ AbilityID := 7, AbilityName := "Stench", Description := "d" },
           [{ Name := "Venusaur", ID := 3 }])
    ∧ ([({ Name := "Venusaur", ID := 3 } : models.NamedResourceID)]).length = 1 := by
  have h := getAbility_row_decoding { SearchType := db.ID, ID := 7, Name := "" }
    { abilityID := 7, abilityName := "Stench", description := "d",
      dexNumber := 0, pokemonName := "" }
    [{ abilityID := 7, abilityName := "Stench", description := "d",
       dexNumber := 3, pokemonName := "Venusaur" }]
    (Or.inl rfl) (by decide) rfl (by decide)
  exact h

/-- C6: a detail lookup whose result set is empty (the base query matched
zero parent rows) returns the typed not-found error carrying the resource
type and the search key, never a success value, and the handler answers it
with status 404 and the plain-text body
`resource of type '<type>' with <ID|name> '<value>' not found`. -/
theorem abilitySearch_notFound_404 (searcharg : String)
    (q : db.SearchInput → List db.AbilityRow)
    (hzero : q (handler.generateSearchInput searcharg) = []) :
    ∃ e : db.ResourceNotFoundError,
      db.GetAbility (handler.generateSearchInput searcharg)
          (q (handler.generateSearchInput searcharg)) = .error (.notFound e)
      ∧ handler.AbilitySearchHandler searcharg q =
          .response 404 (handler.httpErrorBody e.Error)
      ∧ e.ResourceType = "ability"
      ∧ e.SearchType = (handler.generateSearchInput searcharg).SearchType
      ∧ ((handler.generateSearchInput searcharg).SearchType = db.ID →
          e.ID = (handler.generateSearchInput searcharg).ID
          ∧ e.Error = "resource of type 'ability' with ID '"
              ++ toString (handler.generateSearchInput searcharg).ID ++ "' not found")
      ∧ ((handler.generateSearchInput searcharg).SearchType = db.Name →
          e.Name = (handler.generateSearchInput searcharg).Name
          ∧ e.Error = "resource of type 'ability' with name '"
              ++ (handler.generateSearchInput searcharg).Name ++ "' not found") := by
  rcases hA : goAtoi searcharg with _ | id
  · -- name search
    have hin : handler.generateSearchInput searcharg =
        { SearchType := db.Name, ID := 0,
          Name := stringsTitle (stringsToLower searcharg) } := by
      simp [handler.generateSearchInput, hA]
    refine ⟨{ ResourceType := "ability", SearchType := db.Name, ID := 0,
              Name := stringsTitle (stringsToLower searcharg) }, ?_, ?_, rfl, ?_, ?_, ?_⟩
    · rw [hin] at hzero ⊢
      rw [hzero]
      rw [db.GetAbility, if_pos (Or.inr rfl)]
      rfl
    · simp only [handler.AbilitySearchHandler]
      rw [hin] at hzero ⊢
      rw [hzero]
      rw [db.GetAbility, if_pos (Or.inr rfl)]
      rfl
    · rw [hin]
    · rw [hin]
      intro hcontra
      have hcontra' : db.Name = db.ID := hcontra
      exact absurd hcontra' (by decide)
    · rw [hin]
      intro _
      exact ⟨rfl, rfl⟩
  · -- ID search
    have hin : handler.generateSearchInput searcharg =
        { SearchType := db.ID, ID := id, Name := "" } := by
      simp [handler.generateSearchInput, hA]
    refine ⟨{ ResourceType := "ability", SearchType := db.ID, ID := id,
              Name := "" }, ?_, ?_, rfl, ?_, ?_, ?_⟩
    · rw [hin] at hzero ⊢
      rw [hzero]
      rw [db.GetAbility, if_pos (Or.inl rfl)]
      rfl
    · simp only [handler.AbilitySearchHandler]
      rw [hin] at hzero ⊢
      rw [hzero]
      rw [db.GetAbility, if_pos (Or.inl rfl)]
      rfl
    · rw [hin]
    · rw [hin]
      intro _
      exact ⟨rfl, rfl⟩
    · rw [hin]
      intro hcontra
      have hcontra' : db.ID = db.Name := hcontra
      exact absurd hcontra' (by decide)

/-- C6 witness: `GET /v1/abilities/9999` against an empty table answers 404
with the literal key 9999 in the body. -/
theorem abilitySearch_notFound_404_witness :
    ∃ e : db.ResourceNotFoundError,
      db.GetAbility (handler.generateSearchInput "9999")
          ((fun _ => []) (handler.generateSearchInput "9999")) = .error (.notFound e)
      ∧ handler.AbilitySearchHandler "9999" (fun _ => []) =
          .response 404 (handler.httpErrorBody e.Error)
      ∧ e.ResourceType = "ability"
      ∧ e.SearchType = (handler.generateSearchInput "9999").SearchType
      ∧ ((handler.generateSearchInput "9999").SearchType = db.ID →
          e.ID = (handler.generateSearchInput "9999").ID
          ∧ e.Error = "resource of type 'ability' with ID '"
              ++ toString (handler.generateSearchInput "9999").ID ++ "' not found")
      ∧ ((handler.generateSearchInput "9999").SearchType = db.Name →
          e.Name = (handler.generateSearchInput "9999").Name
          ∧ e.Error = "resource of type 'ability' with name '"
              ++ (handler.generateSearchInput "9999").Name ++ "' not found") :=
  abilitySearch_notFound_404 "9999" (fun _ => []) rfl

/-- C10: after a handler emits its body through any nonempty sequence of
`Write` calls, the recorder's `Json` holds only the bytes of the last call —
each `Write` overwrites the field — while the underlying writer received the
concatenation of all chunks. -/
theorem cacheRecorder_keeps_last_chunk (chunks : List (List Nat))
    (w : cache.ResponseState) (rec : cache.CacheResponseRecorder)
    (h : chunks ≠ []) :
    ((chunks.map cache.WriterOp.write).foldl cache.recorderStep (w, rec)).2.Json =
      chunks.getLastD []
    ∧ ((chunks.map cache.WriterOp.write).foldl cache.recorderStep (w, rec)).1.body =
      w.body ++ chunks.flatten := by
  induction chunks generalizing w rec with
  | nil => exact absurd rfl h
  | cons c cs ih =>
    rcases cs with _ | ⟨c2, cs'⟩
    · simp [cache.recorderStep, cache.writerStep]
    · have hrec := ih (cache.writerStep w (.write c)) { rec with Json := c }
        (by simp)
      constructor
      · rw [List.map_cons, List.foldl_cons]
        rw [List.getLastD_cons]
        refine hrec.1.trans ?_
        rw [List.getLastD_eq_getLast?, List.getLastD_eq_getLast?]
        obtain ⟨x, hx⟩ := Option.isSome_iff_exists.mp
          (List.getLast?_isSome.mpr (by simp : (c2 :: cs') ≠ []))
        rw [hx]
        rfl
      · rw [List.map_cons, List.foldl_cons]
        have hb := hrec.2
        rw [show (cache.recorderStep (w, rec) (.write c)) =
            (cache.writerStep w (.write c), { rec with Json := c }) from rfl]
        rw [hb]
        simp [cache.writerStep, List.append_assoc]

/-- C10 witness: two writes of `[1]` then `[2, 3]` record `Json = [2, 3]`
while the client body is `[1, 2, 3]`. -/
theorem cacheRecorder_keeps_last_chunk_witness :
    (([[1], [2, 3]].map cache.WriterOp.write).foldl cache.recorderStep
        (⟨[], none, []⟩, ⟨[], 0⟩)).2.Json = [[1], [2, 3]].getLastD []
    ∧ (([[1], [2, 3]].map cache.WriterOp.write).foldl cache.recorderStep
        (⟨[], none, []⟩, ⟨[], 0⟩)).1.body = [] ++ [[1], [2, 3]].flatten :=
  cacheRecorder_keeps_last_chunk [[1], [2, 3]] ⟨[], none, []⟩ ⟨[], 0⟩ (by decide)

/-- Setting a header makes its value list the single set value. -/
theorem getHeader_setHeader_self (hs : cache.Header) (k v : String) :
    cache.getHeader (cache.setHeader hs k v) k = some [v] := by
  induction hs with
  | nil => simp [cache.setHeader, cache.getHeader]
  | cons kv rest ih =>
    by_cases hk : kv.1 = k
    · simp [cache.setHeader, cache.getHeader, hk]
    · simp [cache.setHeader, cache.getHeader, hk, ih]

/-- Setting one header leaves every other header name unchanged. -/
theorem getHeader_setHeader_ne (hs : cache.Header) (k k' v : String)
    (h : k' ≠ k) :
    cache.getHeader (cache.setHeader hs k' v) k = cache.getHeader hs k := by
  induction hs with
  | nil => simp [cache.setHeader, cache.getHeader, h]
  | cons kv rest ih =>
    by_cases hk : kv.1 = k'
    · simp [cache.setHeader, cache.getHeader, hk, h]
    · simp only [cache.setHeader, hk, if_false]
      by_cases hk2 : kv.1 = k
      · simp [cache.getHeader, hk2]
      · simp [cache.getHeader, hk2, ih]

/-- The cache-hit replay fold only touches the header map. -/
theorem replayFold_status_body (stored : cache.Header) (w : cache.ResponseState) :
    (stored.foldl (fun w kv => { w with
        headers := cache.setHeader w.headers kv.1 (kv.2.headD "") }) w).status = w.status
    ∧ (stored.foldl (fun w kv => { w with
        headers := cache.setHeader w.headers kv.1 (kv.2.headD "") }) w).body = w.body := by
  induction stored generalizing w with
  | nil => exact ⟨rfl, rfl⟩
  | cons kv rest ih => simpa using ih { w with headers := cache.setHeader w.headers kv.1 (kv.2.headD "") }

/-- A header name no stored entry carries is untouched by the replay fold. -/
theorem replayFold_not_mem (stored : cache.Header) (w : cache.ResponseState)
    (k : String) (h : k ∉ stored.map Prod.fst) :
    cache.getHeader ((stored.foldl (fun w kv => { w with
        headers := cache.setHeader w.headers kv.1 (kv.2.headD "") }) w).headers) k =
      cache.getHeader w.headers k := by
  induction stored generalizing w with
  | nil => rfl
  | cons kv rest ih =>
    simp only [List.map_cons, List.mem_cons, not_or] at h
    rw [List.foldl_cons]
    rw [ih _ h.2]
    exact getHeader_setHeader_ne w.headers k kv.1 (kv.2.headD "") (Ne.symm h.1)

/-- After the replay fold, each stored name's value list is exactly the
singleton holding the first stored value. -/
theorem replayFold_lookup (stored : cache.Header) (w : cache.ResponseState)
    (hnd : (stored.map Prod.fst).Nodup) (k : String) (vs : List String)
    (hmem : (k, vs) ∈ stored) :
    cache.getHeader ((stored.foldl (fun w kv => { w with
        headers := cache.setHeader w.headers kv.1 (kv.2.headD "") }) w).headers) k =
      some [vs.headD ""] := by
  induction stored generalizing w with
  | nil => cases hmem
  | cons kv rest ih =>
    rw [List.foldl_cons]
    simp only [List.map_cons, List.nodup_cons] at hnd
    rcases List.mem_cons.mp hmem with heq | hrest
    · have hk : kv.1 = k := by rw [← heq]
      have hnotin : k ∉ rest.map Prod.fst := by rw [← hk]; exact hnd.1
      rw [replayFold_not_mem rest _ k hnotin]
      have : kv.2 = vs := by rw [← heq]
      rw [← this, ← hk]
      exact getHeader_setHeader_self w.headers kv.1 (kv.2.headD "")
    · exact ih _ hnd.2 hrest

/-- C3 counterexample: on a hit whose stored entry holds two values for the
header name `X-A`, the middleware replays only the first value — the stored
value list is not replayed verbatim. -/
theorem cacheHit_replay_counterexample :
    ∃ st2, middleware.CacheResponse (.hit [("X-A", ["v1", "v2"])] [7]) [] "u"
        true true { response := { headers := [], status := none, body := [] },
                    store := [], errorLog := [], handlerRan := false } = some st2
      ∧ cache.getHeader st2.response.headers "X-A" = some ["v1"]
      ∧ (["v1"] : List String) ≠ ["v1", "v2"] :=
  ⟨_, rfl, rfl, by decide⟩

/-- C3 amended: on a cache hit the middleware writes, for every stored header
name, a single-valued header holding the first stored value (`v[0]`), forces
status 200 whatever status was originally recorded (none is stored at all),
writes the stored body bytes after the response already sent, and neither
invokes the wrapped handler nor touches the cache or the error log. -/
theorem cacheHit_replay (header : cache.Header) (json : List Nat)
    (ops : List cache.WriterOp) (url : String) (ri ge : Bool)
    (st : middleware.MWState)
    (hvals : ∀ kv ∈ header, kv.2 ≠ [])
    (hnd : (header.map Prod.fst).Nodup)
    (hstatus : st.response.status = none) :
    ∃ st2, middleware.CacheResponse (.hit header json) ops url ri ge st = some st2
      ∧ (∀ k vs, (k, vs) ∈ header →
          cache.getHeader st2.response.headers k = some [vs.headD ""])
      ∧ st2.response.status = some 200
      ∧ st2.response.body = st.response.body ++ json
      ∧ st2.handlerRan = st.handlerRan
      ∧ st2.store = st.store
      ∧ st2.errorLog = st.errorLog := by
  have hall : header.all (fun kv => !kv.2.isEmpty) = true := by
    rw [List.all_eq_true]
    intro kv hkv
    simpa [List.isEmpty_iff] using hvals kv hkv
  simp only [middleware.CacheResponse, hall, if_true]
  refine ⟨_, rfl, ?_, ?_, ?_, rfl, rfl, rfl⟩
  · intro k vs hmem
    simp only [cache.writerStep]
    exact replayFold_lookup header st.response hnd k vs hmem
  · simp only [cache.writerStep]
    rw [(replayFold_status_body header st.response).1, hstatus]
    rfl
  · simp only [cache.writerStep]
    rw [(replayFold_status_body header st.response).2]

/-- C3 witness: a hit with single-valued stored headers is replayed with
status 200, the stored body, and the handler skipped. -/
theorem cacheHit_replay_witness :
    ∃ st2, middleware.CacheResponse
        (.hit [("Content-Type", ["application/json"]), ("Link", ["l"])] [1, 2])
        [cache.WriterOp.writeHeader 500] "u" true true
        { response := { headers := [], status := none, body := [] },
          store := [], errorLog := [], handlerRan := false } = some st2
      ∧ (∀ k vs, (k, vs) ∈
          [("Content-Type", ["application/json"]), ("Link", ["l"])] →
          cache.getHeader st2.response.headers k = some [vs.headD ""])
      ∧ st2.response.status = some 200
      ∧ st2.response.body = [] ++ [1, 2]
      ∧ st2.handlerRan = false
      ∧ st2.store = []
      ∧ st2.errorLog = [] := by
  have h := cacheHit_replay [("Content-Type", ["application/json"]), ("Link", ["l"])]
    [1, 2] [cache.WriterOp.writeHeader 500] "u" true true
    { response := { headers := [], status := none, body := [] },
      store := [], errorLog := [], handlerRan := false }
    (by decide) (by decide) rfl
  exact h

/-- C4: after a miss the handler runs through the recorder and the state the
middleware returns satisfies: the response the client got is exactly what the
handler wrote; the captured headers and body are stored under the request URL
exactly when the recorded status is 200 (and the store collaborator
accepts); a failing store only appends to the error log — the response and
the cache are left alone and nothing else is sent to the client. -/
theorem cacheMiss_store_iff_200 (ops : List cache.WriterOp) (url : String)
    (ri ge : Bool) (st st2 : middleware.MWState)
    (heq : middleware.CacheResponse .miss ops url ri ge st = some st2) :
    st2.response =
        (ops.foldl cache.recorderStep (st.response, { Json := [], Status := 0 })).1
    ∧ st2.handlerRan = true
    ∧ (((ops.foldl cache.recorderStep
          (st.response, { Json := [], Status := 0 })).2.Status = 200
        ∧ ri = true ∧ ge = true) →
        st2.store = cache.cacheSet st.store url
          ((ops.foldl cache.recorderStep
              (st.response, { Json := [], Status := 0 })).1.headers,
           (ops.foldl cache.recorderStep
              (st.response, { Json := [], Status := 0 })).2.Json)
        ∧ st2.errorLog = st.errorLog)
    ∧ ((ops.foldl cache.recorderStep
          (st.response, { Json := [], Status := 0 })).2.Status ≠ 200 →
        st2.store = st.store ∧ st2.errorLog = st.errorLog)
    ∧ (((ops.foldl cache.recorderStep
          (st.response, { Json := [], Status := 0 })).2.Status = 200
        ∧ (ri = false ∨ ge = false)) →
        st2.store = st.store ∧ ∃ e, st2.errorLog = st.errorLog ++ [e]) := by
  simp only [middleware.CacheResponse] at heq
  by_cases h200 : (ops.foldl cache.recorderStep
      (st.response, { Json := [], Status := 0 })).2.Status = 200
  · rw [if_pos h200] at heq
    cases ri
    · simp [cache.StoreResponse] at heq
      subst heq
      refine ⟨rfl, rfl, ?_, ?_, ?_⟩
      · rintro ⟨_, hcontra, _⟩
        cases hcontra
      · intro hcontra
        exact absurd h200 hcontra
      · intro _
        exact ⟨rfl, ⟨"redis connection not initialized", rfl⟩⟩
    · cases ge
      · simp [cache.StoreResponse] at heq
        subst heq
        refine ⟨rfl, rfl, ?_, ?_, ?_⟩
        · rintro ⟨_, _, hcontra⟩
          cases hcontra
        · intro hcontra
          exact absurd h200 hcontra
        · intro _
          exact ⟨rfl, ⟨"gob encode failed", rfl⟩⟩
      · simp [cache.StoreResponse] at heq
        subst heq
        refine ⟨rfl, rfl, ?_, ?_, ?_⟩
        · intro _
          exact ⟨rfl, rfl⟩
        · intro hcontra
          exact absurd h200 hcontra
        · rintro ⟨_, hcontra | hcontra⟩ <;> cases hcontra
  · rw [if_neg h200] at heq
    rw [Option.some.injEq] at heq
    subst heq
    refine ⟨rfl, rfl, ?_, ?_, ?_⟩
    · rintro ⟨hcontra, _, _⟩
      exact absurd hcontra h200
    · intro _
      exact ⟨rfl, rfl⟩
    · rintro ⟨hcontra, _⟩
      exact absurd hcontra h200

/-- C4 witness: with no handler writes the recorded status is 0, so nothing
is stored and nothing is logged, while the handler did run. -/
theorem cacheMiss_store_iff_200_witness :
    ({ response := { headers := [], status := none, body := [] }, store := [],
       errorLog := [], handlerRan := true } : middleware.MWState).handlerRan = true
    ∧ ({ response := { headers := [], status := none, body := [] }, store := [],
         errorLog := [], handlerRan := true } : middleware.MWState).store = [] := by
  have h := cacheMiss_store_iff_200 [] "u" true true
    { response := { headers := [], status := none, body := [] }, store := [],
      errorLog := [], handlerRan := false }
    { response := { headers := [], status := none, body := [] }, store := [],
      errorLog := [], handlerRan := true } rfl
  exact ⟨h.2.1, (h.2.2.2.1 (by decide)).1⟩

/-- An element the dropped predicate rejects survives `dropWhile`. -/
theorem mem_dropWhile_of_not {α : Type} (p : α → Bool) (c : α) (l : List α)
    (hp : p c = false) (hc : c ∈ l) : c ∈ l.dropWhile p := by
  induction l with
  | nil => cases hc
  | cons x xs ih =>
    rw [List.dropWhile_cons]
    by_cases hx : p x = true
    · rcases List.mem_cons.mp hc with heq | hxs
      · subst heq
        rw [hp] at hx
        cases hx
      · simp [hx, ih hxs]
    · simp only [Bool.not_eq_true] at hx
      simp [hx, hc]

/-- A list starting with `page=` is that literal followed by its own drop 5. -/
theorem startsWithPageEq_decomp (l : List Char)
    (h : handler.startsWithPageEq l = true) :
    l = 'p' :: 'a' :: 'g' :: 'e' :: '=' :: l.drop 5 := by
  unfold handler.startsWithPageEq at h
  split at h
  · simp
  · cases h

/-- The page-number substitution never loses a `?` or `&` of its input. -/
theorem replacePageGo_marker_mem (n : Int) (fuel : Nat) (cs : List Char)
    (c : Char) (hm : c = '?' ∨ c = '&') (hc : c ∈ cs) :
    c ∈ handler.replacePageGo n fuel cs := by
  induction fuel generalizing cs with
  | zero =>
    cases cs with
    | nil => cases hc
    | cons x xs => simpa [handler.replacePageGo] using hc
  | succ fuel ih =>
    cases cs with
    | nil => cases hc
    | cons x xs =>
      simp only [handler.replacePageGo]
      split
      · rename_i hcond
        rcases List.mem_cons.mp hc with hhead | htail
        · subst hhead
          exact List.mem_cons_self _ _
        · have hxs := startsWithPageEq_decomp xs hcond.2
          rw [hxs] at htail
          have hdigit : c.isDigit = false := by
            rcases hm with h | h <;> subst h <;> decide
          have hc5 : c ∈ xs.drop 5 := by
            rcases hm with h | h <;> subst h <;> simpa using htail
          have hmem := ih ((xs.drop 5).dropWhile Char.isDigit)
              (mem_dropWhile_of_not Char.isDigit c (xs.drop 5) hdigit hc5)
          simp [List.mem_cons, List.mem_append, hmem]
      · rcases List.mem_cons.mp hc with hhead | htail
        · subst hhead
          exact List.mem_cons_self _ _
        · exact List.mem_cons_of_mem _ (ih xs htail)

/-- A successful marker scan exhibits a `?` or `&` in the list. -/
theorem suffixHasPageMarker_marker (l : List Char)
    (h : handler.suffixHasPageMarker l = true) : '?' ∈ l ∨ '&' ∈ l := by
  induction l with
  | nil => cases h
  | cons x xs ih =>
    rw [handler.suffixHasPageMarker] at h
    rcases Bool.or_eq_true _ _ |>.mp h with hhead | htail
    · have hx := (Bool.and_eq_true _ _ |>.mp hhead).1
      rcases Bool.or_eq_true _ _ |>.mp hx with hq | ha
      · left
        rw [List.mem_cons]
        exact Or.inl (decide_eq_true_eq.mp hq).symm
      · right
        rw [List.mem_cons]
        exact Or.inl (decide_eq_true_eq.mp ha).symm
    · rcases ih htail with hq | ha
      · exact Or.inl (List.mem_cons_of_mem _ hq)
      · exact Or.inr (List.mem_cons_of_mem _ ha)

/-- A match of `.+[?&]page=\d*(&.+)?` exhibits a `?` or `&` in the text. -/
theorem pageParamMatch_marker (cs : List Char)
    (h : handler.pageParamMatch cs = true) : '?' ∈ cs ∨ '&' ∈ cs := by
  cases cs with
  | nil => cases h
  | cons x xs =>
    rw [handler.pageParamMatch] at h
    rcases suffixHasPageMarker_marker xs h with hq | ha
    · exact Or.inl (List.mem_cons_of_mem _ hq)
    · exact Or.inr (List.mem_cons_of_mem _ ha)

/-- After the page-parameter-ensuring step, the URL contains a `?` or `&`. -/
theorem ensuredURL_marker (url : String) (page : Int) :
    '?' ∈ (if handler.pageParamMatch url.data then url
      else if handler.queryMarkMatch url.data then
        url ++ "&page=" ++ toString page
      else url ++ "?page=" ++ toString page).data
    ∨ '&' ∈ (if handler.pageParamMatch url.data then url
      else if handler.queryMarkMatch url.data then
        url ++ "&page=" ++ toString page
      else url ++ "?page=" ++ toString page).data := by
  by_cases h1 : handler.pageParamMatch url.data
  · rw [if_pos h1]
    exact pageParamMatch_marker url.data h1
  · rw [if_neg h1]
    by_cases h2 : handler.queryMarkMatch url.data
    · rw [if_pos h2]
      right
      rw [String.data_append, String.data_append, List.append_assoc]
      refine List.mem_append.mpr (Or.inr ?_)
      refine List.mem_append.mpr (Or.inl ?_)
      decide
    · rw [if_neg h2]
      left
      rw [String.data_append, String.data_append, List.append_assoc]
      refine List.mem_append.mpr (Or.inr ?_)
      refine List.mem_append.mpr (Or.inl ?_)
      decide

/-- Substituting a page number into a URL that carries a `?` or `&` never
yields the literal string `null`. -/
theorem replacePage_ne_null (n : Int) (s : String)
    (h : '?' ∈ s.data ∨ '&' ∈ s.data) : handler.replacePage n s ≠ "null" := by
  intro heq
  have hdata : handler.replacePageGo n s.data.length s.data = "null".data := by
    have := congrArg String.data heq
    simpa [handler.replacePage] using this
  rcases h with hq | ha
  · have hmem := replacePageGo_marker_mem n s.data.length s.data '?' (Or.inl rfl) hq
    rw [hdata] at hmem
    exact absurd hmem (by decide)
  · have hmem := replacePageGo_marker_mem n s.data.length s.data '&' (Or.inr rfl) ha
    rw [hdata] at hmem
    exact absurd hmem (by decide)

/-- Go's `count/perPage + 1`, decremented when the division is exact, is the
ceiling of `count / perPage` for a non-negative count and positive page size. -/
theorem goLastPage_eq_ceil (a b : Int) (ha : 0 ≤ a) (hb : 1 ≤ b) :
    (if Int.tmod a b = 0 then Int.tdiv a b + 1 - 1 else Int.tdiv a b + 1) =
      ⌈(a : ℚ) / (b : ℚ)⌉ := by
  have hb0 : (0 : Int) < b := by omega
  rw [Int.tdiv_eq_ediv ha (by omega), Int.tmod_eq_emod ha (by omega)]
  have hq := Int.ediv_add_emod a b
  have hr0 : 0 ≤ a % b := Int.emod_nonneg a (by omega)
  have hrb : a % b < b := Int.emod_lt_of_pos a hb0
  have hbQ : (0 : ℚ) < (b : ℚ) := by exact_mod_cast hb0
  by_cases hr : a % b = 0
  · rw [if_pos hr]
    symm
    rw [Int.ceil_eq_iff]
    have haQ : (a : ℚ) = (b : ℚ) * ((a / b : Int) : ℚ) := by
      rw [hr] at hq
      exact_mod_cast (by omega : a = b * (a / b))
    rw [haQ, mul_div_cancel_left₀ _ (ne_of_gt hbQ)]
    push_cast
    constructor
    · linarith
    · linarith
  · rw [if_neg hr]
    symm
    rw [Int.ceil_eq_iff]
    have haQ : (a : ℚ) = (b : ℚ) * ((a / b : Int) : ℚ) + ((a % b : Int) : ℚ) := by
      exact_mod_cast (by omega : a = b * (a / b) + a % b)
    have hrQ0 : (0 : ℚ) < ((a % b : Int) : ℚ) := by
      have : 0 < a % b := lt_of_le_of_ne hr0 (Ne.symm hr)
      exact_mod_cast this
    have hrQb : ((a % b : Int) : ℚ) < (b : ℚ) := by exact_mod_cast hrb
    constructor
    · rw [lt_div_iff₀ hbQ]
      push_cast
      nlinarith [haQ]
    · rw [div_le_iff₀ hbQ]
      push_cast
      nlinarith [haQ]

/-- The `null`-marker assignments of the link synthesis, in isolation: with
both substituted URLs different from `null`, `previous` collapses to `null`
exactly for page 1 or a page beyond the last, and `next` exactly from the
last page on. -/
theorem linksNull_iff (page lastPage : Int) (nu pu : String)
    (hnu : nu ≠ "null") (hpu : pu ≠ "null") :
    ((if page = lastPage then (if page = 1 then "null" else pu)
      else if page > lastPage then "null"
      else (if page = 1 then "null" else pu)) = "null"
      ↔ (page = 1 ∨ lastPage < page))
    ∧ ((if page = lastPage then "null"
        else if page > lastPage then "null"
        else nu) = "null"
      ↔ lastPage ≤ page) := by
  constructor
  · by_cases hL : page = lastPage
    · rw [if_pos hL]
      by_cases h1 : page = 1
      · simp [h1, hL]
      · rw [if_neg h1]
        simp only [hpu, false_iff]
        omega
    · rw [if_neg hL]
      by_cases hgt : page > lastPage
      · rw [if_pos hgt]
        simp only [true_iff]
        omega
      · rw [if_neg hgt]
        by_cases h1 : page = 1
        · simp [h1]
        · rw [if_neg h1]
          simp only [hpu, false_iff]
          omega
  · by_cases hL : page = lastPage
    · rw [if_pos hL]
      simp only [true_iff]
      omega
    · rw [if_neg hL]
      by_cases hgt : page > lastPage
      · rw [if_pos hgt]
        simp only [true_iff]
        omega
      · rw [if_neg hgt]
        simp only [hnu, false_iff]
        omega

/-- C1 amended: for parsed pagination with `page ≥ 1`, `perPage ≥ 1` and a
total `count ≥ 0`, the synthesized last page equals `⌈count / perPage⌉`; the
`next` link is the literal `null` exactly when `page ≥ lastPage`; but the
`previous` link is the literal `null` exactly when `page = 1` **or**
`page > lastPage` (the source collapses both links to `null` beyond the last
page), not exactly when `page = 1` as claimed. -/
theorem answerWithListLinks_spec (count : Int) (pagination : db.Pagination)
    (requestURL : String) (hc : 0 ≤ count) (hpp : 1 ≤ pagination.PerPage)
    (hp : 1 ≤ pagination.Page) :
    (handler.answerWithListLinks count pagination requestURL).lastPage =
      ⌈(count : ℚ) / (pagination.PerPage : ℚ)⌉
    ∧ ((handler.answerWithListLinks count pagination requestURL).previousURL = "null"
        ↔ (pagination.Page = 1
            ∨ (handler.answerWithListLinks count pagination requestURL).lastPage
                < pagination.Page))
    ∧ ((handler.answerWithListLinks count pagination requestURL).nextURL = "null"
        ↔ (handler.answerWithListLinks count pagination requestURL).lastPage
            ≤ pagination.Page) := by
  have hmark := ensuredURL_marker requestURL pagination.Page
  have hnu := replacePage_ne_null (pagination.Page + 1) _ hmark
  have hpu := replacePage_ne_null (pagination.Page - 1) _ hmark
  simp only [handler.answerWithListLinks]
  refine ⟨?_, ?_, ?_⟩
  · exact goLastPage_eq_ceil count pagination.PerPage hc hpp
  · exact (linksNull_iff pagination.Page _ _ _ hnu hpu).1
  · exact (linksNull_iff pagination.Page _ _ _ hnu hpu).2

/-- C1 counterexample: for `count = 1`, `perPage = 1` and requested
`page = 2` the computed last page is 1, and the synthesized `previous` link
is the literal `null` although `page ≠ 1` — refuting
`previous = null ⟺ page = 1`. -/
theorem answerWithListLinks_previous_counterexample :
    (handler.answerWithListLinks 1 { PerPage := 1, Page := 2 }
      "h/v1/abilities?page=2").lastPage = 1
    ∧ (handler.answerWithListLinks 1 { PerPage := 1, Page := 2 }
      "h/v1/abilities?page=2").previousURL = "null"
    ∧ ¬((2 : Int) = 1) := by
  refine ⟨by decide, by decide, by decide⟩

/-- C1 witness: for `count = 5`, `perPage = 2`, `page = 1` the last page is
`⌈5/2⌉ = 3`, `previous` is `null` (page 1) and `next` is a real URL. -/
theorem answerWithListLinks_spec_witness :
    (handler.answerWithListLinks 5 { PerPage := 2, Page := 1 }
        "host/v1/abilities").lastPage =
      ⌈((5 : Int) : ℚ) / ((({ PerPage := 2, Page := 1 } : db.Pagination).PerPage : Int) : ℚ)⌉
    ∧ ((handler.answerWithListLinks 5 { PerPage := 2, Page := 1 }
          "host/v1/abilities").previousURL = "null"
        ↔ (({ PerPage := 2, Page := 1 } : db.Pagination).Page = 1
            ∨ (handler.answerWithListLinks 5 { PerPage := 2, Page := 1 }
                "host/v1/abilities").lastPage
                < ({ PerPage := 2, Page := 1 } : db.Pagination).Page))
    ∧ ((handler.answerWithListLinks 5 { PerPage := 2, Page := 1 }
          "host/v1/abilities").nextURL = "null"
        ↔ (handler.answerWithListLinks 5 { PerPage := 2, Page := 1 }
            "host/v1/abilities").lastPage
            ≤ ({ PerPage := 2, Page := 1 } : db.Pagination).Page) :=
  answerWithListLinks_spec 5 { PerPage := 2, Page := 1 } "host/v1/abilities"
    (by decide) (by decide) (by decide)
